import Mathlib

/-!
# Verification of the AgentX generated-code handling logic

A shallow embedding, over `List Char` strings, of the pure logic of the
AgentX repository: fence-marker extraction (`extract_code` in
`agents/Visualisation.py` and the fenced-python extraction in
`pages/2_Build_Agent.py` / `pages/4_Multi_Agent_System.py`), the sandboxed
executors (`run_generated_code` in `agents/Visualisation.py`, the diagram
handler in `pages/1_Workflow_Planner.py`, the Generate & Run handler in
`agents/SupabaseConnector.py`), filename sanitization and agent saving
(`pages/2_Build_Agent.py`, `pages/4_Multi_Agent_System.py`) and the
marketplace run/stop handlers (`pages/5_Agent_MarketPlace.py`).

Python's `exec` and the OS process/terminal calls are external to the
repository; they are modelled as oracle parameters (a function from the
executed source text to either an exception message or the resulting
namespaces; booleans for whether a kill attempt raises).  All repository
logic is translated line by line from the source.
-/

namespace AgentX

/-! ## Python string primitives -/

/-- ASCII whitespace as recognised by Python's `str.strip()`
(exotic Unicode whitespace is not modelled). -/
def pyIsSpace (c : Char) : Bool :=
  c = ' ' || c = '\t' || c = '\n' || c = '\r' || c = '\x0b' || c = '\x0c'

/-- Python `str.strip()`: drop whitespace from both ends. -/
def pyStrip (l : List Char) : List Char :=
  ((l.dropWhile pyIsSpace).reverse.dropWhile pyIsSpace).reverse

/-- Helper for `splitlines`: `cur` is the current line, reversed. -/
def splitlinesAux : List Char → List Char → List (List Char)
  | cur, [] => if cur = [] then [] else [cur.reverse]
  | cur, '\r' :: '\n' :: rest => cur.reverse :: splitlinesAux [] rest
  | cur, '\n' :: rest => cur.reverse :: splitlinesAux [] rest
  | cur, '\r' :: rest => cur.reverse :: splitlinesAux [] rest
  | cur, c :: rest => splitlinesAux (c :: cur) rest

/-- Python `str.splitlines()`: split at `\n`, `\r` and `\r\n`; a trailing
line break does not produce a final empty line (exotic Unicode line
boundaries are not modelled). -/
def splitlines (s : List Char) : List (List Char) :=
  splitlinesAux [] s

/-- Helper for `splitOnNl`. -/
def splitOnNlAux : List Char → List Char → List (List Char)
  | cur, [] => [cur.reverse]
  | cur, c :: rest =>
    if c = '\n' then cur.reverse :: splitOnNlAux [] rest
    else splitOnNlAux (c :: cur) rest

/-- Python `str.split('\n')`: always yields one more piece than there are
newline characters. -/
def splitOnNl (s : List Char) : List (List Char) :=
  splitOnNlAux [] s

/-- Python `"\n".join(lines)`. -/
def joinNl (lines : List (List Char)) : List Char :=
  match lines with
  | [] => []
  | l :: rest => l ++ (rest.foldr (fun x acc => '\n' :: x ++ acc) [])

/-- Python substring containment (`needle in hay`). -/
def strContains (hay needle : List Char) : Bool :=
  needle.isPrefixOf hay ||
    match hay with
    | [] => false
    | _ :: t => strContains t needle

/-! ## Code Extractor (`extract_code`, agents/Visualisation.py lines 54-83) -/

/-- The fence marker string. -/
def tripleTick : List Char := "```".toList

/-- A fence marker line: `line.strip().startswith("```")`. -/
def fenceLine (l : List Char) : Bool :=
  tripleTick.isPrefixOf (pyStrip l)

/-- Index of the first fence marker line, if any
(the `for i, line in enumerate(lines)` search). -/
def findFenceIdx : List (List Char) → Option Nat
  | [] => none
  | l :: rest => if fenceLine l then some 0 else (findFenceIdx rest).map (· + 1)

/-- `extract_code` from `agents/Visualisation.py`: if the text is empty
return `""`; if the first line is a fence, collect the following lines up
to (not including) the next fence line; otherwise look for a fence line
anywhere and do the same from there; otherwise return the text unchanged. -/
def extract_code (text : List Char) : List Char :=
  if text = [] then []
  else
    match splitlines text with
    | [] => text
    | l0 :: rest =>
      if fenceLine l0 then
        joinNl (rest.takeWhile (fun l => !fenceLine l))
      else
        match findFenceIdx (l0 :: rest) with
        | some i =>
          joinNl (((l0 :: rest).drop (i + 1)).takeWhile (fun l => !fenceLine l))
        | none => text

/-! ## Helper lemmas -/

theorem splitlines_nil : splitlines [] = [] := rfl

/-- If the first index at which `p` holds is `k`, then taking while `!p`
is taking `k` elements. -/
theorem takeWhile_not_eq_take (p : List Char → Bool) :
    ∀ (l : List (List Char)) (k : Nat) (x : List Char),
      l.get? k = some x → p x = true →
      (∀ j y, j < k → l.get? j = some y → p y = false) →
      l.takeWhile (fun a => !p a) = l.take k := by
  intro l
  induction l with
  | nil => intro k x hget; simp at hget
  | cons a t ih =>
    intro k x hget hpx hmin
    cases k with
    | zero =>
      have ha : a = x := by simpa using hget
      subst ha
      simp [List.takeWhile, hpx]
    | succ k =>
      have ha : p a = false := hmin 0 a (Nat.succ_pos k) rfl
      have hrec : t.takeWhile (fun a => !p a) = t.take k := by
        refine ih k x (by simpa using hget) hpx ?_
        intro j y hj hgy
        exact hmin (j + 1) y (Nat.succ_lt_succ hj) (by simpa using hgy)
      simp [List.takeWhile, ha, hrec]

theorem findFenceIdx_eq_none (ls : List (List Char))
    (h : ∀ l ∈ ls, fenceLine l = false) : findFenceIdx ls = none := by
  induction ls with
  | nil => rfl
  | cons a t ih =>
    have ha : fenceLine a = false := h a (List.mem_cons_self a t)
    have ht : findFenceIdx t = none := ih (fun l hl => h l (List.mem_cons_of_mem a hl))
    simp [findFenceIdx, ha, ht]

/-! ## Claims C1 and C2 -/

/-- **C1.** For every input string that begins with a fence marker line
(and in which a second fence marker line occurs), `extract_code` returns
exactly the lines strictly between the first fence marker line and the
next fence marker line, joined by newlines, excluding both marker lines. -/
theorem extract_code_between_fences (text l0 lk : List Char)
    (rest : List (List Char)) (k : Nat)
    (hsplit : splitlines text = l0 :: rest)
    (h0 : fenceLine l0 = true)
    (hget : rest.get? k = some lk)
    (hfk : fenceLine lk = true)
    (hmin : ∀ j y, j < k → rest.get? j = some y → fenceLine y = false) :
    extract_code text = joinNl (rest.take k) := by
  have hne : text ≠ [] := by
    intro h; rw [h, splitlines_nil] at hsplit; exact List.noConfusion hsplit
  have htw : rest.takeWhile (fun l => !fenceLine l) = rest.take k :=
    takeWhile_not_eq_take fenceLine rest k lk hget hfk hmin
  unfold extract_code
  rw [if_neg hne, hsplit]
  simp only [h0, if_pos, htw]

/-- Witness for C1 at the concrete input `"```python\nx = 1\n```"`. -/
theorem extract_code_between_fences_witness :
    extract_code ("```python\nx = 1\n```".toList) = ("x = 1".toList) := by
  have h := extract_code_between_fences ("```python\nx = 1\n```".toList)
    ("```python".toList) ("```".toList) ["x = 1".toList, "```".toList] 1
    (by decide) (by decide) (by decide) (by decide)
    (by
      intro j y hj hgy
      have hj0 : j = 0 := by omega
      subst hj0
      have hy : y = ("x = 1".toList) := by
        simpa using hgy.symm
      subst hy
      decide)
  rw [h]
  decide

/-- **C2.** For every input string in which no line is a fence marker
line, `extract_code` returns the input unchanged. -/
theorem extract_code_no_fence (text : List Char)
    (h : ∀ l ∈ splitlines text, fenceLine l = false) :
    extract_code text = text := by
  by_cases hne : text = []
  · subst hne; rfl
  · unfold extract_code
    rw [if_neg hne]
    cases hsp : splitlines text with
    | nil => rfl
    | cons l0 rest =>
      have h0 : fenceLine l0 = false := by
        refine h l0 ?_; rw [hsp]; exact List.mem_cons_self l0 rest
      have hfind : findFenceIdx (l0 :: rest) = none := by
        refine findFenceIdx_eq_none _ ?_
        intro l hl; refine h l ?_; rw [hsp]; exact hl
      simp [h0, hfind]

/-- Witness for C2 at a concrete fence-free input. -/
theorem extract_code_no_fence_witness :
    extract_code ("print(1)\nprint(2)".toList) = ("print(1)\nprint(2)".toList) :=
  extract_code_no_fence ("print(1)\nprint(2)".toList) (by decide)

/-! ## Fenced-python extraction
(`pages/2_Build_Agent.py` lines 80-91 and `pages/4_Multi_Agent_System.py`
lines 139-154; the two code blocks are identical). -/

/-- The opening marker `"```python"`. -/
def pythonTick : List Char := "```python".toList

/-- A line opening a python fence: `line.strip().startswith("```python")`. -/
def isOpenLine (l : List Char) : Bool :=
  pythonTick.isPrefixOf (pyStrip l)

/-- A line closing a fence: `line.strip() == "```"`. -/
def isCloseLine (l : List Char) : Bool :=
  pyStrip l = tripleTick

/-- The scan loop of the generate handler: walks the lines carrying the
current absolute index `i` and the last seen opening index `start`;
stops (`break`) at the first exact closing line seen after an opener. -/
def findPairAux : List (List Char) → Nat → Option Nat → Option Nat × Option Nat
  | [], _, start => (start, none)
  | l :: rest, i, start =>
    if isOpenLine l then findPairAux rest (i + 1) (some i)
    else if isCloseLine l && start.isSome then (start, some i)
    else findPairAux rest (i + 1) start

/-- The fenced-code extraction of the Build Agent and Multi-Agent pages:
if `"```"` occurs in the raw text and the scan finds an opening
`"```python"` line followed by an exact `"```"` line, keep the lines
strictly between them; otherwise keep the raw text unchanged. -/
def extract_fenced_python (code : List Char) : List Char :=
  if strContains code tripleTick then
    match findPairAux (splitlines code) 0 none with
    | (some s, some e) =>
      if e > s then joinNl (((splitlines code).drop (s + 1)).take (e - (s + 1)))
      else code
    | _ => code
  else code

theorem findPairAux_snd_none_of_no_close (ls : List (List Char)) :
    ∀ (i : Nat) (st : Option Nat), (∀ l ∈ ls, isCloseLine l = false) →
      (findPairAux ls i st).2 = none := by
  induction ls with
  | nil => intro i st _; rfl
  | cons l rest ih =>
    intro i st h
    have hc : isCloseLine l = false := h l (List.mem_cons_self l rest)
    have hrest : ∀ x ∈ rest, isCloseLine x = false :=
      fun x hx => h x (List.mem_cons_of_mem l hx)
    by_cases ho : isOpenLine l = true
    · simp only [findPairAux, ho, if_pos]
      exact ih (i + 1) (some i) hrest
    · simp only [findPairAux, ho, hc, Bool.false_and, if_neg, Bool.false_eq_true,
        not_false_eq_true, if_false]
      exact ih (i + 1) st hrest

theorem findPairAux_snd_none (ls : List (List Char)) :
    ∀ (i : Nat),
      (∀ a b la lb, a < b → ls.get? a = some la → ls.get? b = some lb →
        ¬(isOpenLine la = true ∧ isCloseLine lb = true)) →
      (findPairAux ls i none).2 = none := by
  induction ls with
  | nil => intro i _; rfl
  | cons l rest ih =>
    intro i h
    by_cases ho : isOpenLine l = true
    · simp only [findPairAux, ho, if_pos]
      refine findPairAux_snd_none_of_no_close rest (i + 1) (some i) ?_
      intro x hx
      by_contra hcx
      have hcx' : isCloseLine x = true := by
        cases hcc : isCloseLine x
        · exact absurd hcc hcx
        · rfl
      obtain ⟨n, hn⟩ := List.get?_of_mem hx
      exact h 0 (n + 1) l x (Nat.succ_pos n) rfl (by simpa using hn) ⟨ho, hcx'⟩
    · have ho' : isOpenLine l = false := by
        cases hoo : isOpenLine l
        · rfl
        · exact absurd hoo ho
      simp only [findPairAux, ho', Bool.false_eq_true, not_false_eq_true, if_neg,
        Option.isSome_none, Bool.and_false, if_false]
      refine ih (i + 1) ?_
      intro a b la lb hab hga hgb
      exact h (a + 1) (b + 1) la lb (Nat.succ_lt_succ hab) (by simpa using hga)
        (by simpa using hgb)

/-- **C9.** The extraction used by the Build Agent and Multi-Agent pages
only recognises a block opened by a line whose stripped form starts with
`"```python"` and closed by a line whose stripped form is exactly
`"```"`; for every raw text containing a fence marker but no such
opening/closing pair, the kept code equals the raw text unchanged. -/
theorem extract_fenced_unchanged (code : List Char)
    (hmark : strContains code tripleTick = true)
    (hnopair : ∀ a b la lb, a < b → (splitlines code).get? a = some la →
      (splitlines code).get? b = some lb →
      ¬(isOpenLine la = true ∧ isCloseLine lb = true)) :
    extract_fenced_python code = code := by
  have h2 : (findPairAux (splitlines code) 0 none).2 = none :=
    findPairAux_snd_none (splitlines code) 0 hnopair
  unfold extract_fenced_python
  rw [if_pos hmark]
  cases hfp : findPairAux (splitlines code) 0 none with
  | mk f s =>
    rw [hfp] at h2
    simp only at h2
    subst h2
    cases f <;> rfl

/-- Witness for C9: the raw text `"hello ``` world"` contains a fence
marker but no opening/closing pair, and is kept unchanged. -/
theorem extract_fenced_unchanged_witness :
    extract_fenced_python ("hello ``` world".toList) = ("hello ``` world".toList) := by
  refine extract_fenced_unchanged _ (by decide) ?_
  intro a b la lb hab hga hgb
  cases b with
  | zero => omega
  | succ b =>
    have hlen : (splitlines ("hello ``` world".toList)).length = 1 := by decide
    have hnone : (splitlines ("hello ``` world".toList)).get? (b + 1) = none :=
      List.get?_eq_none.mpr (by omega)
    rw [hnone] at hgb
    exact fun _ => Option.noConfusion hgb

/-! ## Filename sanitization
(`sanitize_filename` in `pages/2_Build_Agent.py` lines 157-162 and
`pages/4_Multi_Agent_System.py` lines 26-31; identical bodies, differing
only in the default name). -/

/-- The character class `[A-Za-z0-9_-]` (ASCII, as in the Python regex). -/
def isAllowedChar (c : Char) : Bool :=
  c.isAlpha || c.isDigit || c = '_' || c = '-'

/-- `re.sub(r"[^A-Za-z0-9_-]", "_", name)`: each character match is a
single character, so the substitution is a character-wise map. -/
def reSubDisallowed (l : List Char) : List Char :=
  l.map (fun c => if isAllowedChar c then c else '_')

/-- Common body of both `sanitize_filename` copies:
`name = (name or "").strip()`, then the regex substitution, then a fixed
default if the result is empty. -/
def sanitizeCore (deflt name : List Char) : List Char :=
  if reSubDisallowed (pyStrip name) = [] then deflt
  else reSubDisallowed (pyStrip name)

/-- `sanitize_filename` from `pages/2_Build_Agent.py` (default `"agent"`). -/
def sanitize_filename_build (name : List Char) : List Char :=
  sanitizeCore ("agent".toList) name

/-- `sanitize_filename` from `pages/4_Multi_Agent_System.py`
(default `"multi_agent"`). -/
def sanitize_filename_multi (name : List Char) : List Char :=
  sanitizeCore ("multi_agent".toList) name

/-- The behaviour C6 claims, in the claim's own words: every character
outside `[A-Za-z0-9_-]` replaced by an underscore, other characters
unchanged, the empty string mapped to the fixed default. -/
def claimedSanitizeBuild (name : List Char) : List Char :=
  if name = [] then ("agent".toList) else reSubDisallowed name

theorem allowed_not_space (c : Char) (h : isAllowedChar c = true) :
    pyIsSpace c = false := by
  cases hps : pyIsSpace c
  · rfl
  · exfalso
    have hmem : ((((c = ' ' ∨ c = '\t') ∨ c = '\n') ∨ c = '\r') ∨ c = '\x0b')
        ∨ c = '\x0c' := by
      simpa [pyIsSpace, Bool.or_eq_true, decide_eq_true_eq] using hps
    rcases hmem with ((((h1 | h1) | h1) | h1) | h1) | h1 <;>
      (subst h1; exact absurd h (by decide))

theorem dropWhile_eq_self_of_not (p : Char → Bool) (l : List Char)
    (h : ∀ c ∈ l, p c = false) : l.dropWhile p = l := by
  cases l with
  | nil => rfl
  | cons a t => simp [List.dropWhile, h a (List.mem_cons_self a t)]

theorem pyStrip_eq_self_of_allowed (l : List Char)
    (h : ∀ c ∈ l, isAllowedChar c = true) : pyStrip l = l := by
  have h1 : l.dropWhile pyIsSpace = l :=
    dropWhile_eq_self_of_not pyIsSpace l (fun c hc => allowed_not_space c (h c hc))
  have h2 : l.reverse.dropWhile pyIsSpace = l.reverse :=
    dropWhile_eq_self_of_not pyIsSpace l.reverse
      (fun c hc => allowed_not_space c (h c (List.mem_reverse.mp hc)))
  unfold pyStrip
  rw [h1, h2, List.reverse_reverse]

theorem reSub_eq_self_of_allowed (l : List Char)
    (h : ∀ c ∈ l, isAllowedChar c = true) : reSubDisallowed l = l := by
  unfold reSubDisallowed
  induction l with
  | nil => rfl
  | cons a t ih =>
    have ha : isAllowedChar a = true := h a (List.mem_cons_self a t)
    have ht := ih (fun c hc => h c (List.mem_cons_of_mem a hc))
    simp [ha, ht]

theorem sanitizeCore_all_allowed (deflt name : List Char)
    (hd : ∀ c ∈ deflt, isAllowedChar c = true) :
    ∀ c ∈ sanitizeCore deflt name, isAllowedChar c = true := by
  intro c hc
  unfold sanitizeCore at hc
  by_cases he : reSubDisallowed (pyStrip name) = []
  · rw [if_pos he] at hc; exact hd c hc
  · rw [if_neg he] at hc
    unfold reSubDisallowed at hc
    obtain ⟨x, _, hx⟩ := List.mem_map.mp hc
    by_cases hax : isAllowedChar x = true
    · rw [if_pos hax] at hx; rw [← hx]; exact hax
    · rw [if_neg hax] at hx; rw [← hx]; decide

theorem sanitizeCore_ne_nil (deflt name : List Char) (hd : deflt ≠ []) :
    sanitizeCore deflt name ≠ [] := by
  unfold sanitizeCore
  by_cases he : reSubDisallowed (pyStrip name) = []
  · rw [if_pos he]; exact hd
  · rw [if_neg he]; exact he

theorem sanitizeCore_idem (deflt name : List Char) (hd : deflt ≠ [])
    (hda : ∀ c ∈ deflt, isAllowedChar c = true) :
    sanitizeCore deflt (sanitizeCore deflt name) = sanitizeCore deflt name := by
  have hall : ∀ c ∈ sanitizeCore deflt name, isAllowedChar c = true :=
    sanitizeCore_all_allowed deflt name hda
  have hne : sanitizeCore deflt name ≠ [] := sanitizeCore_ne_nil deflt name hd
  have hstrip : pyStrip (sanitizeCore deflt name) = sanitizeCore deflt name :=
    pyStrip_eq_self_of_allowed _ hall
  have hsub : reSubDisallowed (sanitizeCore deflt name) = sanitizeCore deflt name :=
    reSub_eq_self_of_allowed _ hall
  conv_lhs => rw [sanitizeCore, hstrip, hsub]
  rw [if_neg hne]

/-! ## Claims C6 and C10 -/

/-- Counterexample to C6 as stated: on the input `" a"` (leading space),
`sanitize_filename` strips the space instead of replacing it with an
underscore, so the output differs from the claimed character-wise map. -/
theorem sanitize_filename_strip_counterexample :
    sanitize_filename_build (" a".toList) ≠ claimedSanitizeBuild (" a".toList) := by
  decide

/-- **C6 (amended).** `sanitize_filename` first strips leading and
trailing whitespace; on the stripped string every character outside
`[A-Za-z0-9_-]` is replaced by an underscore and other characters are
left unchanged; if the stripped string is empty (in particular, for the
empty input), the fixed default name `"agent"` is returned. -/
theorem sanitize_filename_charwise (name : List Char) :
    (pyStrip name ≠ [] → ∀ i : Nat,
      (sanitize_filename_build name).get? i =
        ((pyStrip name).get? i).map (fun c => if isAllowedChar c then c else '_'))
    ∧ (pyStrip name = [] → sanitize_filename_build name = ("agent".toList)) := by
  constructor
  · intro hne i
    have hsub : reSubDisallowed (pyStrip name) ≠ [] := by
      unfold reSubDisallowed
      simpa using hne
    unfold sanitize_filename_build sanitizeCore
    rw [if_neg hsub]
    unfold reSubDisallowed
    exact List.get?_map _ _ i
  · intro he
    unfold sanitize_filename_build sanitizeCore
    rw [he]
    rfl

/-- Witness for C6 (amended) at the spec's example `"my agent!.py"`
(the space, `'!'` and `'.'` each become `'_'`) and at the empty string. -/
theorem sanitize_filename_charwise_witness :
    sanitize_filename_build ("my agent!.py".toList) = ("my_agent__py".toList)
    ∧ (sanitize_filename_build ("my agent!.py".toList)).get? 2 =
        ((pyStrip ("my agent!.py".toList)).get? 2).map
          (fun c => if isAllowedChar c then c else '_')
    ∧ sanitize_filename_build [] = ("agent".toList) :=
  ⟨by decide,
   (sanitize_filename_charwise ("my agent!.py".toList)).1 (by decide) 2,
   (sanitize_filename_charwise []).2 (by decide)⟩

/-- **C10.** Both copies of `sanitize_filename` are idempotent, and their
output is always a non-empty string over `[A-Za-z0-9_-]`. -/
theorem sanitize_filename_idempotent (s : List Char) :
    (sanitize_filename_build (sanitize_filename_build s) = sanitize_filename_build s
      ∧ sanitize_filename_build s ≠ []
      ∧ ∀ c ∈ sanitize_filename_build s, isAllowedChar c = true)
    ∧ (sanitize_filename_multi (sanitize_filename_multi s) = sanitize_filename_multi s
      ∧ sanitize_filename_multi s ≠ []
      ∧ ∀ c ∈ sanitize_filename_multi s, isAllowedChar c = true) :=
  ⟨⟨sanitizeCore_idem _ s (by decide) (by decide),
    sanitizeCore_ne_nil _ s (by decide),
    sanitizeCore_all_allowed _ s (by decide)⟩,
   ⟨sanitizeCore_idem _ s (by decide) (by decide),
    sanitizeCore_ne_nil _ s (by decide),
    sanitizeCore_all_allowed _ s (by decide)⟩⟩

/-- Witness for C10 at the concrete input `"my agent!.py"`. -/
theorem sanitize_filename_idempotent_witness :
    sanitize_filename_build (sanitize_filename_build ("my agent!.py".toList)) =
      sanitize_filename_build ("my agent!.py".toList)
    ∧ isAllowedChar 'm' = true :=
  ⟨(sanitize_filename_idempotent ("my agent!.py".toList)).1.1,
   (sanitize_filename_idempotent ("my agent!.py".toList)).1.2.2 'm' (by decide)⟩

/-! ## Python values and namespaces

The generated snippets are executed by Python's `exec`, which is external
to the repository; it is modelled by an oracle function from the executed
source text to either an exception message (`Except.error`) or the pair
of (globals, locals) namespaces left behind (`Except.ok`).  Values are
modelled by a small universe sufficient for the truthiness and
`isinstance(·, list)` tests the handlers perform; a Python list is
modelled by its length (the handlers only test emptiness and length). -/

inductive PyVal where
  | pyNone : PyVal
  | pyList (len : Nat) : PyVal
  | pyStr (s : List Char) : PyVal
  | pyOpaque (b : Bool) : PyVal
deriving DecidableEq, Repr

/-- Python truthiness (`bool(v)`). -/
def pyTruthy : PyVal → Bool
  | .pyNone => false
  | .pyList n => n != 0
  | .pyStr s => !s.isEmpty
  | .pyOpaque b => b

/-- A namespace: a finite map from names to values. -/
abbrev Ns := List (List Char × PyVal)

/-- Association lookup (dict membership + value). -/
def nsGet : Ns → List Char → Option PyVal
  | [], _ => none
  | (k, v) :: rest, key => if k = key then some v else nsGet rest key

/-- Python `d.get(key)` / `d.get(key, None)`: the stored value, or the
`None` object when the key is absent. -/
def dictGet (ns : Ns) (key : List Char) : PyVal :=
  (nsGet ns key).getD PyVal.pyNone

/-- Python `a or b`: `a` when truthy, else `b`. -/
def pyOrV (a b : PyVal) : PyVal :=
  if pyTruthy a then a else b

/-- The `exec` oracle: executed source text to exception message or
resulting (globals, locals). -/
abbrev ExecOracle := List Char → Except (List Char) (Ns × Ns)

/-! ## `textwrap.dedent` (used by `run_generated_code`) -/

/-- Leading run of spaces and tabs (`^[ \t]*`). -/
def lineIndent (l : List Char) : List Char :=
  l.takeWhile (fun c => c = ' ' || c = '\t')

/-- The line contains a character that is not a space or tab. -/
def hasContent (l : List Char) : Bool :=
  l.any (fun c => !(c = ' ' || c = '\t'))

/-- Longest common prefix of two strings. -/
def commonPrefix : List Char → List Char → List Char
  | a :: as, b :: bs => if a = b then a :: commonPrefix as bs else []
  | _, _ => []

/-- `textwrap.dedent`: whitespace-only lines are blanked, the longest
common leading space/tab run of all content lines is computed, and
removed from the start of every line that carries it (only `\n` line
separators are modelled, matching `text.split('\n')`). -/
def pyDedent (text : List Char) : List Char :=
  let lines := (splitOnNl text).map
    (fun l => if !l.isEmpty && !hasContent l then [] else l)
  match (lines.filter hasContent).map lineIndent with
  | [] => joinNl lines
  | i0 :: restIndents =>
    let margin := restIndents.foldl commonPrefix i0
    if margin = [] then joinNl lines
    else joinNl (lines.map
      (fun l => if margin.isPrefixOf l then l.drop margin.length else l))

/-! ## Sandboxed Executor (`run_generated_code`,
agents/Visualisation.py lines 86-112) -/

/-- `run_generated_code`: dedent the code, execute it; on a raised
exception return `(None, str(e), code)`; on success read `fig` from the
locals, falling back (by Python `or`) to the globals, and return
`(fig, None, code)`. -/
def run_generated_code (execFn : ExecOracle) (code : List Char) :
    PyVal × Option (List Char) × List Char :=
  match execFn (pyDedent code) with
  | .error e => (PyVal.pyNone, some e, pyDedent code)
  | .ok (g, l) =>
    (pyOrV (dictGet l ("fig".toList)) (dictGet g ("fig".toList)), none, pyDedent code)

/-! ## Workflow Planner diagram handler
(`pages/1_Workflow_Planner.py` lines 47-79) -/

/-- Messages surfaced to the operator (`st.error`, `st.warning`, ...);
`uimage` stands for the rendered figure, `ucode` for a displayed code
block, `udataframe` for a rendered table. -/
inductive UiMsg where
  | uerror (s : List Char)
  | uwarning (s : List Char)
  | usuccess (s : List Char)
  | uinfo (s : List Char)
  | ucode (s : List Char)
  | uwrite (v : PyVal)
  | udataframe (v : PyVal)
  | uimage
deriving DecidableEq, Repr

/-- The planner's fence stripping: if there are at least two lines and the
first is a fence line, keep the following lines up to (not including) the
first line whose stripped form is exactly `"```"`. -/
def planner_code_to_exec (code : List Char) : List Char :=
  match splitlines code with
  | l0 :: l1 :: rest =>
    if fenceLine l0 then joinNl ((l1 :: rest).takeWhile (fun l => !isCloseLine l))
    else code
  | _ => code

/-- The `Generate Workflow Diagram` handler from the model response on:
execute the stripped code; on a raised exception show the error and the
code, re-raise, and let the enclosing handler show its own error (the
fault never escapes further — the function is total); on success read
`fig` from the locals and render it, or report that no figure was
produced.  The figure rendering (`savefig`/`st.image`) is summarised as
`uimage`. -/
def planner_diagram_handler (execFn : ExecOracle) (code : List Char) : List UiMsg :=
  match execFn (planner_code_to_exec code) with
  | .error e =>
    [.uerror (("Error executing generated code: ".toList) ++ e),
     .ucode (planner_code_to_exec code),
     .uerror (("Error generating diagram: ".toList) ++ e)]
  | .ok (_, l) =>
    if dictGet l ("fig".toList) = PyVal.pyNone then
      [.uerror ("No figure named 'fig' was created by generated code.".toList)]
    else [.uimage]

/-! ## Supabase Generate & Run handler
(`agents/SupabaseConnector.py` lines 148-176) -/

/-- Outcome of the execution section: what source text was handed to
`exec` (if any), and the messages shown. -/
structure RunOutcome where
  executed : Option (List Char)
  msgs : List UiMsg
deriving DecidableEq, Repr

/-- Rendering of the `result` variable: a list is shown as a row count
(`0 rows` message for the empty list), `None` as the no-result notice,
anything else verbatim. -/
def renderResult : PyVal → List UiMsg
  | .pyList 0 => [.uinfo ("Query returned 0 rows.".toList)]
  | .pyList (n + 1) =>
    [.usuccess (("Returned ".toList) ++ (Nat.repr (n + 1)).toList ++ (" row(s).".toList)),
     .udataframe (.pyList (n + 1))]
  | .pyNone => [.uwrite (.pyStr ("No 'result' variable returned.".toList))]
  | v => [.uwrite v]

/-- The execution section of the `Generate & Run` handler: if the snippet
has more than two lines, execute it with the first and last lines
discarded (joined by newlines) and render `safe_locals.get("result",
None)`; otherwise report the length error, skip execution, and render the
absent result.  On a raised exception show the diagnostic (the oracle's
error text standing for `traceback.format_exc()`). -/
def supabase_generate_run (execFn : ExecOracle) (code : List Char) : RunOutcome :=
  if (splitlines code).length > 2 then
    match execFn (joinNl ((splitlines code).drop 1).dropLast) with
    | .error e =>
      { executed := some (joinNl ((splitlines code).drop 1).dropLast),
        msgs := [.uerror ("Error while executing generated code:".toList), .ucode e] }
    | .ok (_, l) =>
      { executed := some (joinNl ((splitlines code).drop 1).dropLast),
        msgs := renderResult (dictGet l ("result".toList)) }
  else
    { executed := none,
      msgs := .uerror ("Generated code is too short to skip first and last lines.".toList)
        :: renderResult PyVal.pyNone }

/-! ## Claims C3, C4 and C5 -/

/-- **C3.** For every snippet whose execution raises a fault, the
Sandboxed Executor catches the fault and returns the error message to its
caller in the result triple (`run_generated_code`), and the Workflow
Planner diagram handler contains the fault entirely, surfacing both error
messages; both are total functions, so the fault never propagates
further and the host never crashes. -/
theorem executor_catches_fault (execFn : ExecOracle) (code e : List Char)
    (herr : execFn (pyDedent code) = .error e) :
    run_generated_code execFn code = (PyVal.pyNone, some e, pyDedent code)
    ∧ ∀ (execFn2 : ExecOracle) (code2 e2 : List Char),
        execFn2 (planner_code_to_exec code2) = .error e2 →
        planner_diagram_handler execFn2 code2 =
          [.uerror (("Error executing generated code: ".toList) ++ e2),
           .ucode (planner_code_to_exec code2),
           .uerror (("Error generating diagram: ".toList) ++ e2)] := by
  constructor
  · unfold run_generated_code
    rw [herr]
  · intro execFn2 code2 e2 herr2
    unfold planner_diagram_handler
    rw [herr2]

/-- Witness for C3 with a concrete always-raising `exec` oracle. -/
theorem executor_catches_fault_witness :
    run_generated_code (fun _ => Except.error ("boom".toList)) ("fig = 1/0".toList)
      = (PyVal.pyNone, some ("boom".toList), ("fig = 1/0".toList))
    ∧ planner_diagram_handler (fun _ => Except.error ("boom".toList)) ("x".toList)
      = [.uerror (("Error executing generated code: boom".toList)),
         .ucode ("x".toList),
         .uerror (("Error generating diagram: boom".toList))] :=
  ⟨((executor_catches_fault (fun _ => Except.error ("boom".toList))
      ("fig = 1/0".toList) ("boom".toList) rfl).1).trans (by decide),
   (((executor_catches_fault (fun _ => Except.error ("boom".toList))
      ("fig = 1/0".toList) ("boom".toList) rfl).2
      (fun _ => Except.error ("boom".toList)) ("x".toList) ("boom".toList) rfl)).trans
     (by decide)⟩

/-- **C4.** After a successful execution, the Sandboxed Executor reads
the `fig` variable from the local namespace (a truthy local value is
returned as the result), falls back to the global namespace when it is
absent locally, and when it is absent in both namespaces returns the
`None` sentinel with no error — a normal, non-error outcome; the function
is total, so it never throws. -/
theorem executor_reads_result_var (execFn : ExecOracle) (code : List Char)
    (g l : Ns) (hok : execFn (pyDedent code) = .ok (g, l)) :
    (∀ v, nsGet l ("fig".toList) = some v → pyTruthy v = true →
      (run_generated_code execFn code).1 = v)
    ∧ (nsGet l ("fig".toList) = none →
      (run_generated_code execFn code).1 = dictGet g ("fig".toList))
    ∧ (nsGet l ("fig".toList) = none → nsGet g ("fig".toList) = none →
      run_generated_code execFn code = (PyVal.pyNone, none, pyDedent code)) := by
  refine ⟨?_, ?_, ?_⟩
  · intro v hv htv
    unfold run_generated_code
    rw [hok]
    dsimp only
    unfold pyOrV dictGet
    rw [hv]
    simp [htv]
  · intro hv
    unfold run_generated_code
    rw [hok]
    dsimp only
    unfold pyOrV dictGet
    rw [hv]
    simp [pyTruthy]
  · intro hv hg
    unfold run_generated_code
    rw [hok]
    dsimp only
    unfold pyOrV dictGet
    rw [hv, hg]
    simp [pyTruthy]

/-- Witness for C4 with a concrete `exec` oracle leaving both namespaces
empty: the sentinel is returned with no error. -/
theorem executor_reads_result_var_witness :
    run_generated_code (fun _ => Except.ok (([] : Ns), ([] : Ns))) ("x = 1".toList)
      = (PyVal.pyNone, none, ("x = 1".toList)) :=
  ((executor_reads_result_var (fun _ => Except.ok ([], [])) ("x = 1".toList)
      [] [] rfl).2.2 rfl rfl).trans (by decide)

/-- **C5.** The line-stripping executor variant: a snippet of more than
two lines is executed exactly as the snippet with its first and last
lines discarded; a snippet of two or fewer lines is not executed at all
and a length-based error is reported instead. -/
theorem supabase_strips_first_last (execFn : ExecOracle) (code : List Char) :
    ((splitlines code).length > 2 →
      (supabase_generate_run execFn code).executed =
        some (joinNl ((splitlines code).drop 1).dropLast))
    ∧ ((splitlines code).length ≤ 2 →
      supabase_generate_run execFn code =
        { executed := none,
          msgs := [.uerror ("Generated code is too short to skip first and last lines.".toList),
                   .uwrite (.pyStr ("No 'result' variable returned.".toList))] }) := by
  constructor
  · intro hlen
    unfold supabase_generate_run
    rw [if_pos hlen]
    cases execFn (joinNl ((splitlines code).drop 1).dropLast) with
    | error e => rfl
    | ok gl => cases gl with | mk g l => rfl
  · intro hlen
    unfold supabase_generate_run
    rw [if_neg (by omega)]
    rfl

/-- Witness for C5: a three-line fenced snippet is executed with the
fence lines discarded; a one-line snippet is refused with the length
error. -/
theorem supabase_strips_first_last_witness :
    (supabase_generate_run
        (fun _ => Except.ok (([] : Ns), [( "result".toList, PyVal.pyList 2)]))
        ("```python\nresult = [(1,2),(3,4)]\n```".toList)).executed
      = some ("result = [(1,2),(3,4)]".toList)
    ∧ supabase_generate_run (fun _ => Except.ok (([] : Ns), ([] : Ns))) ("x".toList)
      = { executed := none,
          msgs := [.uerror ("Generated code is too short to skip first and last lines.".toList),
                   .uwrite (.pyStr ("No 'result' variable returned.".toList))] } :=
  ⟨((supabase_strips_first_last
      (fun _ => Except.ok (([] : Ns), [( "result".toList, PyVal.pyList 2)]))
      ("```python\nresult = [(1,2),(3,4)]\n```".toList)).1 (by decide)).trans (by decide),
   (supabase_strips_first_last (fun _ => Except.ok (([] : Ns), ([] : Ns)))
      ("x".toList)).2 (by decide)⟩

/-! ## Agent saving (`_save_agent_callback`,
`pages/2_Build_Agent.py` lines 186-205)

The filesystem is modelled as a finite map from path to file content;
`os.replace` is the atomic rename. -/

abbrev FS := List (List Char × List Char)

/-- Content of the file at `path`, if it exists. -/
def fsRead : FS → List Char → Option (List Char)
  | [], _ => none
  | (p, c) :: rest, path => if p = path then some c else fsRead rest path

/-- `os.path.exists(path)`. -/
def fsExists (fs : FS) (path : List Char) : Bool :=
  (fsRead fs path).isSome

/-- `open(path, "w").write(content)`: create or replace the file. -/
def fsWrite (fs : FS) (path content : List Char) : FS :=
  (path, content) :: fs.filter (fun e => decide (e.1 ≠ path))

/-- Delete the file at `path`. -/
def fsRemove (fs : FS) (path : List Char) : FS :=
  fs.filter (fun e => decide (e.1 ≠ path))

/-- `os.replace(src, dst)`: atomic rename.  (In the callback `src` was
just written, so the missing-source error path is unreachable and the
map is returned unchanged there.) -/
def osReplace (fs : FS) (src dst : List Char) : FS :=
  match fsRead fs src with
  | some content => fsWrite (fsRemove fs src) dst content
  | none => fs

/-- The session flags the callback writes
(`agent_saved`, `agent_saved_path`, `agent_save_error`). -/
structure SaveState where
  agent_saved : Bool
  agent_saved_path : List Char
  agent_save_error : List Char
deriving DecidableEq, Repr

/-- `os.path.join(agents_dir, f"{safe_name}.py")` (POSIX join with the
relative `agents` directory). -/
def finalPathOf (raw_name : List Char) : List Char :=
  ("agents/".toList) ++ sanitize_filename_build raw_name ++ (".py".toList)

/-- `_save_agent_callback`: sanitize the name; if the target exists and
the overwrite flag is not set, record the file-exists error and return
without writing; otherwise write a `.tmp` file and atomically rename it
over the target, recording success. -/
def save_agent_callback (fs : FS) (raw_name : List Char) (overwrite : Bool)
    (code_to_save : List Char) (st0 : SaveState) : FS × SaveState :=
  if fsExists fs (finalPathOf raw_name) && !overwrite then
    (fs, { st0 with agent_save_error := ("File exists and overwrite not confirmed.".toList) })
  else
    let fs1 := fsWrite fs (finalPathOf raw_name ++ (".tmp".toList)) code_to_save
    let fs2 := osReplace fs1 (finalPathOf raw_name ++ (".tmp".toList)) (finalPathOf raw_name)
    (fs2,
     { agent_saved := true,
       agent_saved_path :=
         ("./agents/".toList) ++ sanitize_filename_build raw_name ++ (".py".toList),
       agent_save_error := [] })

/-! ## Claim C7 -/

/-- **C7.** Saving to an existing filename without the overwrite flag
performs no write at all: the filesystem is returned unchanged (so the
existing file's content is byte-for-byte unchanged) and the
file-exists condition is reported. -/
theorem save_no_overwrite (fs : FS) (raw_name code_to_save : List Char)
    (st0 : SaveState) (hex : fsExists fs (finalPathOf raw_name) = true) :
    (save_agent_callback fs raw_name false code_to_save st0).1 = fs
    ∧ fsRead (save_agent_callback fs raw_name false code_to_save st0).1
        (finalPathOf raw_name) = fsRead fs (finalPathOf raw_name)
    ∧ (save_agent_callback fs raw_name false code_to_save st0).2.agent_save_error
        = ("File exists and overwrite not confirmed.".toList) := by
  have hcond : (fsExists fs (finalPathOf raw_name) && !false) = true := by
    rw [hex]; rfl
  unfold save_agent_callback
  rw [if_pos hcond]
  exact ⟨rfl, rfl, rfl⟩

/-- Witness for C7: a filesystem already holding `agents/agent.py`
(the sanitized form of the empty name) is left untouched. -/
theorem save_no_overwrite_witness :
    (save_agent_callback [(("agents/agent.py".toList), ("old content".toList))]
        [] false ("new content".toList) ⟨false, [], []⟩).1
      = [(("agents/agent.py".toList), ("old content".toList))]
    ∧ (save_agent_callback [(("agents/agent.py".toList), ("old content".toList))]
        [] false ("new content".toList) ⟨false, [], []⟩).2.agent_save_error
      = ("File exists and overwrite not confirmed.".toList) :=
  ⟨(save_no_overwrite [(("agents/agent.py".toList), ("old content".toList))]
      [] ("new content".toList) ⟨false, [], []⟩ (by decide)).1,
   (save_no_overwrite [(("agents/agent.py".toList), ("old content".toList))]
      [] ("new content".toList) ⟨false, [], []⟩ (by decide)).2.2⟩

/-! ## Marketplace run/stop handlers
(`pages/5_Agent_MarketPlace.py` lines 95-124 and 147-178)

Process launching and killing are OS calls, modelled by oracles: the
entry returned by `start_agent_process`, and booleans saying whether the
graceful-termination attempt and the forceful-kill fallback raise. -/

/-- The dict returned by `start_agent_process`
(keys `pid`, `proc`, `cmd`, `terminal`, optional `error`). -/
structure ProcEntry where
  pid : Option Nat
  hasProc : Bool
  cmd : List Char
  terminal : Bool
  errMsg : Option (List Char)
deriving DecidableEq, Repr

/-- The `{}` default of `agent_processes.get(name, {})`: every key
absent. -/
def emptyEntry : ProcEntry := ⟨none, false, [], false, none⟩

/-- The per-session process registry `st.session_state.agent_processes`. -/
abbrev Registry := List (List Char × ProcEntry)

def regGet : Registry → List Char → Option ProcEntry
  | [], _ => none
  | (k, v) :: rest, key => if k = key then some v else regGet rest key

/-- `agent_processes[name] = entry`. -/
def regInsert (reg : Registry) (name : List Char) (e : ProcEntry) : Registry :=
  (name, e) :: reg.filter (fun p => decide (p.1 ≠ name))

/-- `agent_processes.pop(name, None)`. -/
def regPop (reg : Registry) (name : List Char) : Registry :=
  reg.filter (fun p => decide (p.1 ≠ name))

/-- Truthiness of `entry.get("pid")` (absent or zero is falsy). -/
def pidTruthy : Option Nat → Bool
  | some p => p != 0
  | none => false

/-- `running = name in agent_processes and agent_processes[name].get("pid")`. -/
def entryRunning (reg : Registry) (name : List Char) : Bool :=
  match regGet reg name with
  | some e => pidTruthy e.pid
  | none => false

/-- Truthiness of `entry.get("error")`. -/
def errTruthy : Option (List Char) → Bool
  | some s => !s.isEmpty
  | none => false

/-- `stop_agent_process`: if a process handle or a truthy pid is
recorded, attempt graceful termination (`termRaises` says whether the OS
call raises); on failure fall back to a forceful kill (`killRaises`);
report success iff one of the attempts completed.  With neither handle
nor pid the function falls through and reports failure. -/
def stop_agent_process (entry : ProcEntry) (termRaises killRaises : Bool) : Bool :=
  if entry.hasProc || pidTruthy entry.pid then
    if !termRaises then true
    else if !killRaises then true
    else false
  else false

/-- The `▶️ Run` button handler: a running agent is rejected with a
warning and no process is started (the final component records whether
`start_agent_process` was invoked); otherwise the start result is
registered and reported. -/
def run_handler (reg : Registry) (name : List Char) (startResult : ProcEntry) :
    Registry × List UiMsg × Bool :=
  if entryRunning reg name then
    (reg,
     [.uwarning ("Agent appears to be already running. Stop it first if you want to restart.".toList)],
     false)
  else
    (regInsert reg name startResult,
     if errTruthy startResult.errMsg then
       [.uerror (("Failed to start agent: ".toList) ++ startResult.errMsg.getD [])]
     else if pidTruthy startResult.pid then
       [.usuccess (("Started `".toList) ++ name ++ ("` (pid: ".toList)
         ++ (Nat.repr (startResult.pid.getD 0)).toList ++ (") — ".toList)
         ++ (if startResult.terminal then ("terminal".toList) else ("background".toList)))]
     else
       [.usuccess (("Started `".toList) ++ name
         ++ ("` — process started (no pid available)".toList))],
     true)

/-- The `⏹ Stop` button handler: a non-running agent is a no-op warning;
otherwise the registry entry is stopped, and removed only when the stop
reports success. -/
def stop_handler (reg : Registry) (name : List Char)
    (termRaises killRaises : Bool) : Registry × List UiMsg :=
  if !entryRunning reg name then
    (reg, [.uwarning ("Agent is not running.".toList)])
  else
    if stop_agent_process ((regGet reg name).getD emptyEntry) termRaises killRaises then
      (regPop reg name, [.usuccess ("Stopped process.".toList)])
    else
      (reg, [.uerror ("Failed to stop process. You may need to kill it manually.".toList)])

/-! ## Claim C8 -/

/-- **C8.** The per-agent run/stop state machine: a Run request for an
agent recorded as running is rejected with a warning, the registry is
unchanged and no process is started; a Stop request for an agent not
recorded as running is a no-op warning (the handler is a total function,
so no exception); and a registry entry is removed exactly when the stop
reports confirmed success — on a failed stop it stays registered. -/
theorem run_stop_state_machine (reg : Registry) (name : List Char)
    (startResult : ProcEntry) (termRaises killRaises : Bool) :
    (entryRunning reg name = true →
      run_handler reg name startResult =
        (reg,
         [.uwarning ("Agent appears to be already running. Stop it first if you want to restart.".toList)],
         false))
    ∧ (entryRunning reg name = false →
      stop_handler reg name termRaises killRaises =
        (reg, [.uwarning ("Agent is not running.".toList)]))
    ∧ (entryRunning reg name = true →
      (stop_agent_process ((regGet reg name).getD emptyEntry) termRaises killRaises = true →
        (stop_handler reg name termRaises killRaises).1 = regPop reg name)
      ∧ (stop_agent_process ((regGet reg name).getD emptyEntry) termRaises killRaises = false →
        (stop_handler reg name termRaises killRaises).1 = reg)) := by
  refine ⟨?_, ?_, ?_⟩
  · intro hrun
    unfold run_handler
    rw [if_pos hrun]
  · intro hnot
    unfold stop_handler
    rw [hnot]
    rfl
  · intro hrun
    constructor
    · intro hok
      unfold stop_handler
      rw [hrun, hok]
      rfl
    · intro hfail
      unfold stop_handler
      rw [hrun, hfail]
      rfl

/-- Witness for C8 on a concrete registry holding a running agent `"a"`:
running `"a"` again is rejected, stopping the unknown `"b"` is a no-op
warning, and a successful stop of `"a"` removes its entry. -/
theorem run_stop_state_machine_witness :
    run_handler [(("a".toList), ⟨some 5, true, [], false, none⟩)] ("a".toList)
        ⟨some 9, true, [], false, none⟩
      = ([(("a".toList), ⟨some 5, true, [], false, none⟩)],
         [.uwarning ("Agent appears to be already running. Stop it first if you want to restart.".toList)],
         false)
    ∧ stop_handler [(("a".toList), ⟨some 5, true, [], false, none⟩)] ("b".toList)
        false false
      = ([(("a".toList), ⟨some 5, true, [], false, none⟩)],
         [.uwarning ("Agent is not running.".toList)])
    ∧ (stop_handler [(("a".toList), ⟨some 5, true, [], false, none⟩)] ("a".toList)
        false false).1
      = regPop [(("a".toList), ⟨some 5, true, [], false, none⟩)] ("a".toList) :=
  ⟨(run_stop_state_machine [(("a".toList), ⟨some 5, true, [], false, none⟩)]
      ("a".toList) ⟨some 9, true, [], false, none⟩ false false).1 (by decide),
   (run_stop_state_machine [(("a".toList), ⟨some 5, true, [], false, none⟩)]
      ("b".toList) ⟨some 9, true, [], false, none⟩ false false).2.1 (by decide),
   ((run_stop_state_machine [(("a".toList), ⟨some 5, true, [], false, none⟩)]
      ("a".toList) ⟨some 9, true, [], false, none⟩ false false).2.2 (by decide)).1
     (by decide)⟩

end AgentX
